import Mathlib

/-!
Verification of the template-instance core of `lit-html` (fork `commitjs/lit-html`),
file `src/lib/template-instance.ts`, against its natural-language specification.

The DOM fragment cloned from the template is embedded as a pure tree of nodes
(elements, text nodes, comment nodes); the `TreeWalker` used by `_clone` is
embedded as a function from a traversal position to the next visited node,
nodes being identified by their child-index paths from the fragment root.
The alignment loop of `TemplateInstance._clone` is embedded as a fuel-indexed
step function over an explicit state, and `update` / `updateWithoutCommit`
as the sequences of calls they issue to the bound `Part` objects.

External collaborators (`template.js`, `part.js`, the `TemplateProcessor`
and the browser's `customElements` registry) are not part of the sources;
where the code depends on them they are modelled from the specification,
as marked in the corresponding doc comments.
-/

/-! ### String utilities

`String.prototype.includes`, `String.prototype.replace` (first occurrence,
string pattern) and the global-regex match count used by `_clone` are
embedded as executable functions on character lists. -/

/-- JS `hay.includes(pat)` on character lists. -/
def containsSubAux : List Char → List Char → Bool
  | pat, [] => pat.isEmpty
  | pat, c :: rest => pat.isPrefixOf (c :: rest) || containsSubAux pat rest

/-- JS `hay.includes(pat)`. -/
def strIncludes (hay pat : String) : Bool :=
  containsSubAux pat.toList hay.toList

/-- JS `s.replace(pat, rep)` with a string pattern: replaces the first
occurrence of `pat` only. -/
def replaceFirstAux (pat rep : List Char) : List Char → List Char
  | [] => []
  | c :: rest =>
    if pat.isPrefixOf (c :: rest) then rep ++ (c :: rest).drop pat.length
    else c :: replaceFirstAux pat rep rest

/-- JS `s.replace(pat, rep)` (first occurrence, string pattern). -/
def replaceFirst (s pat rep : String) : String :=
  ⟨replaceFirstAux pat.toList rep.toList s.toList⟩

/-- Character class `[a-zA-Z0-9]` of `customElementOpeningTagRe`. -/
def isAlnumAscii (c : Char) : Bool := c.isAlpha || c.isDigit

/-- Character class `[a-zA-Z0-9-]` of `customElementOpeningTagRe`. -/
def isTagChar (c : Char) : Bool := isAlnumAscii c || c = '-'

/-- One attempted match of `customElementOpeningTagRe` = `/<[a-zA-Z0-9]+-[a-zA-Z0-9-]+/g`
just after a `<`: one or more alphanumerics, a `-`, then one or more of
`[a-zA-Z0-9-]` (greedy, as the regex quantifiers are). Returns the rest of
the input after the match, or `none` when the pattern does not match here. -/
def tryMatchCustom (l : List Char) : Option (List Char) :=
  let s1 := l.span isAlnumAscii
  if s1.1.isEmpty then none
  else
    match s1.2 with
    | '-' :: r2 =>
      let s2 := r2.span isTagChar
      if s2.1.isEmpty then none else some s2.2
    | _ => none

/-- Number of matches of `customElementOpeningTagRe` in a character list:
non-overlapping, leftmost-first, each search resuming after the previous
match, as `String.prototype.match` with the `g` flag counts them. The
scan consumes at least one character per step (a successful match resumes
at a strictly shorter suffix), so running it with `fuel = l.length`
(see `countMatchesAux`) performs the complete scan. -/
def countMatchesGo : Nat → List Char → Nat
  | 0, _ => 0
  | fuel + 1, l =>
    match l with
    | [] => 0
    | c :: rest =>
      if c = '<' then
        match tryMatchCustom rest with
        | some r => 1 + countMatchesGo fuel r
        | none => countMatchesGo fuel rest
      else countMatchesGo fuel rest

/-- The complete scan of `l` (each step shortens the input, so `l.length`
steps always finish it). -/
def countMatchesAux (l : List Char) : Nat := countMatchesGo l.length l

/-- JS `s.match(customElementOpeningTagRe)?.length || 0`. -/
def countCustomOpen (s : String) : Nat := countMatchesAux s.toList

/-! ### The DOM fragment model

The cloned `DocumentFragment` walked by `_clone` is a list of root nodes;
a node is an element (localName, attributes, children), a text node or a
comment node.  For a `<template>` element the `children` field holds the
children of its `.content` fragment (in the real DOM the template element
itself has no child nodes; the walker only enters them through the explicit
`walker.currentNode = (node as HTMLTemplateElement).content` redirect). -/

inductive DNode where
  | element (tag : String) (attrs : List (String × String)) (children : List DNode)
  | text (data : String)
  | comment (data : String)

/-- `childNodes` as the model stores them (for a template element these are
the nodes of its `.content`). -/
def childrenOf : DNode → List DNode
  | .element _ _ cs => cs
  | _ => []

/-- Uppercasing as `Node.nodeName` reports it for an HTML element. -/
def toUpperAscii (s : String) : String := ⟨s.toList.map Char.toUpper⟩

/-- `Node.nodeName` of an element is its localName uppercased (the model
stores localNames); `_clone` compares it against `'TEMPLATE'`. -/
def isTemplateNode : Option DNode → Bool
  | some (.element tag _ _) => toUpperAscii tag = "TEMPLATE"
  | _ => false

/-- HTML text-serialization escape (`&`, `<`, `>`; the nbsp case of the
HTML fragment-serialization algorithm is not modelled). -/
def escapeHtml (s : String) : String :=
  ⟨s.toList.flatMap fun c =>
    if c = '&' then "&amp;".toList
    else if c = '<' then "&lt;".toList
    else if c = '>' then "&gt;".toList
    else [c]⟩

/-- HTML attribute-value serialization escape (`&`, `"`). -/
def escapeAttrVal (s : String) : String :=
  ⟨s.toList.flatMap fun c =>
    if c = '&' then "&amp;".toList
    else if c = '"' then "&quot;".toList
    else [c]⟩

/-- Serialization of one attribute as `innerHTML` prints it. -/
def serializeAttr (a : String × String) : String :=
  " " ++ a.1 ++ "=\"" ++ escapeAttrVal a.2 ++ "\""

mutual

/-- `innerHTML`-style serialization of one node (void elements are not
modelled: every element serializes with an end tag). -/
def serializeNode : DNode → String
  | .element tag attrs cs =>
    "<" ++ tag ++ String.join (attrs.map serializeAttr) ++ ">" ++
      serializeList cs ++ "</" ++ tag ++ ">"
  | .text d => escapeHtml d
  | .comment d => "<!--" ++ d ++ "-->"

/-- `innerHTML` of a node with these children (for the template element,
its `.content`'s children). -/
def serializeList : List DNode → String
  | [] => ""
  | n :: ns => serializeNode n ++ serializeList ns

end

mutual

/-- `Node.textContent` read on an element: concatenated data of all
descendant text nodes (comments contribute nothing). On a text or comment
node, `textContent` is its data. -/
def descText : DNode → String
  | .element _ _ cs => descTextList cs
  | .text d => d
  | .comment _ => ""

/-- Descendant text content of a child list. -/
def descTextList : List DNode → String
  | [] => ""
  | n :: ns => descText n ++ descTextList ns

end

/-! ### Node identity: paths

A node of the (mutating) fragment is identified by the list of child
indices leading to it from the fragment root. -/

/-- A path from the fragment root: child indices, outermost first. -/
abbrev NPath := List Nat

/-- The node of `roots` at path `p` (`none` when `p` is the fragment root
itself or leads outside the tree). -/
def getNode (roots : List DNode) : NPath → Option DNode
  | [] => none
  | [i] => roots.get? i
  | i :: rest => (roots.get? i).bind fun n => getNode (childrenOf n) rest

/-- Replace the children of a node (no effect on text/comment nodes, which
have none). -/
def setChildren : DNode → List DNode → DNode
  | .element tag attrs _, cs => .element tag attrs cs
  | n, _ => n

/-- `parent.replaceChild(v, node-at-p)`: the fragment with the node at path
`p` replaced by `v`. -/
def updateAt (roots : List DNode) : NPath → DNode → List DNode
  | [], _ => roots
  | [i], v => roots.set i v
  | i :: rest, v =>
    match roots.get? i with
    | none => roots
    | some n => roots.set i (setChildren n (updateAt (childrenOf n) rest v))

/-! ### The TreeWalker

`_clone` creates `document.createTreeWalker(fragment, 133, null, false)`:
all elements, text nodes and comment nodes are visible, which is every node
kind of the model, so no filtering occurs.  `walker.currentNode` is either
the fragment root (initially), a node, or — after the explicit redirect on
meeting a `<template>` — the `.content` fragment of a template node.
`nextNode()` walks in document order; it does not descend into a template
element (whose child nodes live in `.content`), and walking inside a
`.content` fragment cannot escape it upward (the content fragment has no
parent), returning `null` when the content is exhausted, exactly the case
`_clone` handles by popping its template stack. -/

inductive WPos where
  | root
  | content (p : NPath)
  | node (p : NPath)

/-- Next-node search upward from the node at `p`, on the reversed path
(`i :: qrev` stands for the path `qrev.reverse ++ [i]`, i.e. child `i` of
the node at `qrev.reverse`): the following sibling of the node or of its
nearest ancestor, stopping (as the DOM walker does) at the fragment root
and at any template node, whose children belong to a parentless
`.content` fragment. -/
def ascendNextRev (frag : List DNode) : List Nat → Option (List Nat)
  | [] => none
  | i :: qrev =>
    if (getNode frag (qrev.reverse ++ [i + 1])).isSome then some ((i + 1) :: qrev)
    else if qrev = [] then none
    else if isTemplateNode (getNode frag qrev.reverse) then none
    else ascendNextRev frag qrev

/-- Next-node search upward from the node at `p` (see `ascendNextRev`). -/
def ascendNext (frag : List DNode) (p : NPath) : Option NPath :=
  (ascendNextRev frag p.reverse).map List.reverse

/-- `walker.nextNode()` from a current position: the path of the returned
node, or `none` when the traversal (of the fragment, or of a template's
content) is exhausted. -/
def walkerNext (frag : List DNode) : WPos → Option NPath
  | .root => if frag.isEmpty then none else some [0]
  | .content p =>
    match getNode frag p with
    | some (.element _ _ cs) => if cs.isEmpty then none else some (p ++ [0])
    | _ => none
  | .node p =>
    match getNode frag p with
    | some (.element tag _ cs) =>
      if toUpperAscii tag = "TEMPLATE" || cs.isEmpty then ascendNext frag p
      else some (p ++ [0])
    | _ => ascendNext frag p

/-- `node = walker.nextNode()` including the walker-state effect: on
success `currentNode` becomes the returned node, on `null` the walker's
position is unchanged. -/
def walkerStep (frag : List DNode) (pos : WPos) : Option NPath × WPos :=
  match walkerNext frag pos with
  | some p => (some p, .node p)
  | none => (none, pos)

/-! ### Part descriptors and the instantiation context

`TemplatePart` and `isTemplatePartActive` are imported by
`template-instance.ts` from `template.js`, which is not among the sources;
they are modelled from the specification. -/

/-- Modelled from the spec: a Part Descriptor's kind is `node` or
`attribute` (`part.type` in the code). -/
inductive PartKind where
  | node
  | attr

/-- Modelled from the spec: a Part Descriptor
`{ kind, position, active, name?, literalSegments? }` (`template.js` is not
among the sources): `index` is the traversal ordinal (`position`), `name`
and `strings` the attribute name and literal segments, and `active` the
activation state tested by `isTemplatePartActive`. -/
structure TemplatePart where
  kind : PartKind
  index : Nat
  name : String := ""
  strings : List String := []
  active : Bool := true

/-- Modelled from the spec: `isTemplatePartActive` (from `template.js`)
reads the descriptor's activation state; `active = false` descriptors are
skipped as holes. -/
def isTemplatePartActive (p : TemplatePart) : Bool := p.active

/-- The instantiation context: `this.context.declarations` maps a slot
name to a component constructor. Constructors are identified abstractly by
numbers; `new ctor(context)` produces a fresh element whose localName the
environment's `ctorTag` assigns. -/
structure Ctx where
  declarations : String → Option Nat

/-- The failure modes of `_clone`: the explicit `throw new Error(...)` of
the missing-declaration check; the `TypeError` of `new ctor(...)` when
`ctor` is `undefined` (context mapping missed but the ambient registry
hit, so the check above did not throw); and the runtime failures of the
non-null assertions `node!` and `stack.pop()!`. -/
inductive CloneError where
  | missingDeclaration (selector : String)
  | ctorUndefined
  | nullNodeAccess
  | emptyStack

/-- The apostrophe character, U+0027. -/
def apostrophe : String := String.singleton (Char.ofNat 39)

/-- The message of the thrown error, for `missingDeclaration` the
template literal of line 170 of `template-instance.ts`:
`Make sure that you` + apostrophe + `ve added <selector> into declarations!`. -/
def errMessage : CloneError → String
  | .missingDeclaration s =>
    "Make sure that you" ++ apostrophe ++ "ve added " ++ s ++ " into declarations!"
  | .ctorUndefined => "TypeError: ctor is not a constructor"
  | .nullNodeAccess => "TypeError: null node access"
  | .emptyStack => "TypeError: pop on empty stack"

/-- The slot name: `node.localName.replace(mark + "-", "")`. -/
def selectorOf (mark tag : String) : String :=
  replaceFirst tag (mark ++ "-") ""

/-- The attribute-transplant loop of lines 176–181:
`for (let i = 0; i < attributes.length; i++)` over the LIVE `attributes`
collection of the placeholder, each iteration removing `attributes[i]`
from the placeholder (which shifts the collection) and attaching it to the
new instance. Returns (attributes left on the placeholder, attributes now
on the instance). -/
def moveAttrsGo : Nat → Nat → List (String × String) → List (String × String) →
    List (String × String) × List (String × String)
  | 0, _, src, dst => (src, dst)
  | fuel + 1, i, src, dst =>
    if h : i < src.length then
      moveAttrsGo fuel (i + 1) (src.eraseIdx i) (dst ++ [src.get ⟨i, h⟩])
    else (src, dst)

/-- The transplant loop started with `i = 0`. The fuel argument of
`moveAttrsGo` equals `src.length` at every call (`eraseIdx` shortens the
collection by one per iteration), and with `fuel = src.length` the fuel-0
case is the empty collection, where the loop guard is false anyway: the
countdown is exactly the `for` loop. -/
def moveAttrs (attrs : List (String × String)) :
    List (String × String) × List (String × String) :=
  moveAttrsGo attrs.length 0 attrs []

/-- Lines 163–183 of `_clone`, after the component-slot test has
succeeded and a context is present: derive the slot name from the
localName, look it up in `context.declarations`, throw when both that
mapping and the ambient `customElements` registry miss, otherwise invoke
`new ctor(context)` — a `TypeError` when the mapping missed —, replace
the placeholder by the instance, copy `oldNode.innerHTML` into
`instance.textContent`, and move the placeholder's attributes over.
Returns (the instance as it ends up in the tree, the detached
placeholder). -/
def resolveComponent (mark : String) (ctorTag : Nat → String) (ctx : Ctx)
    (registry : String → Option Nat) (tag : String)
    (attrs : List (String × String)) (children : List DNode) :
    Except CloneError (DNode × DNode) :=
  let selector := selectorOf mark tag
  let ctor := ctx.declarations selector
  if ctor.isNone && (registry selector).isNone then
    .error (.missingDeclaration selector)
  else
    match ctor with
    | none => .error .ctorUndefined
    | some c =>
      let inner := serializeList children
      let instChildren := if inner = "" then [] else [DNode.text inner]
      let moved := moveAttrs attrs
      .ok (DNode.element (ctorTag c) moved.2 instChildren,
           DNode.element tag moved.1 children)

/-- The anchor of line 190, `node!.previousSibling`: the preceding sibling
of the node at `p`, `none` when the node is its parent's (or the
fragment's) first child. -/
def anchorOf (frag : List DNode) (p : NPath) : Option NPath :=
  match p.getLast? with
  | none => none
  | some 0 => none
  | some (i + 1) =>
    if (getNode frag (p.dropLast ++ [i])).isSome then some (p.dropLast ++ [i])
    else none

/-- A Part produced during instantiation, identified by the descriptor
ordinal it was produced for (`handleTextExpression` returns one Part;
`handleAttributeExpressions` returns a sequence, indexed by `j`). -/
inductive PartRef where
  | textPart (i : Nat)
  | attrPart (i j : Nat)

/-- Observable actions of the instantiation pass: the creation-strategy
invocations (with the node and anchor arguments the code hands them) and
each component-slot resolution. -/
inductive CloneEvent where
  | bindText (p : NPath) (anchor : Option NPath)
  | bindAttr (node : Option NPath) (i : Nat)
  | resolve (p : NPath) (selector : String)

/-- The inputs of one `_clone` call: the template's content (whose clone
is walked and whose serialization is pre-scanned), its part descriptors,
the optional context, the ambient `customElements` registry
(`get` only, modelled as a name → constructor lookup), the localName each
constructor gives its instances, the number of Parts
`handleAttributeExpressions` returns at the call for descriptor ordinal
`i` (the strategy is an external collaborator with a sequence-valued
result), and the component marker `mark` (imported from `template.js`,
not among the sources; modelled from the spec as an opaque reserved
substring). -/
structure CloneEnv where
  templateChildren : List DNode
  parts : List TemplatePart
  context : Option Ctx
  registry : String → Option Nat
  ctorTag : Nat → String
  attrCount : Nat → Nat
  mark : String

/-- The mutable state of the `_clone` loop: the (mutated) fragment, the
template stack, the walker position, and the variables `node`,
`partIndex`, `nodeIndex`, `customElementsCount` (an integer: the JS
decrement can drive it negative), `this.__parts`, plus the event trace. -/
structure CloneState where
  frag : List DNode
  stack : List NPath
  pos : WPos
  node : Option NPath
  partIndex : Nat
  nodeIndex : Nat
  count : Int
  instParts : List (Option PartRef)
  trace : List CloneEvent

/-- One iteration of the inner walker loop of lines 144–158:
`nodeIndex++`; push and redirect into `.content` when the current node is
a `<template>`; `node = walker.nextNode()`, and on `null` resume from the
popped stack entry (the `!` of `stack.pop()!` fails on an empty stack;
`node!.nodeName` fails when `node` is `null`). -/
def advanceOnce (s : CloneState) : Except CloneError CloneState :=
  match s.node with
  | none => .error .nullNodeAccess
  | some p =>
    let pushed := isTemplateNode (getNode s.frag p)
    let stack1 := if pushed then p :: s.stack else s.stack
    let pos1 := if pushed then WPos.content p else s.pos
    match walkerNext s.frag pos1 with
    | some p1 =>
      .ok { s with
            nodeIndex := s.nodeIndex + 1
            stack := stack1
            pos := .node p1
            node := some p1 }
    | none =>
      match stack1 with
      | [] => .error .emptyStack
      | t :: rest =>
        let st := walkerStep s.frag (.node t)
        .ok { s with
              nodeIndex := s.nodeIndex + 1
              stack := rest
              pos := st.2
              node := st.1 }

theorem advanceOnce_nodeIndex {s s' : CloneState} (h : advanceOnce s = .ok s') :
    s'.nodeIndex = s.nodeIndex + 1 := by
  unfold advanceOnce at h
  split at h
  · exact absurd h (by simp)
  · simp only [] at h
    split at h
    · simp only [Except.ok.injEq] at h
      subst h
      rfl
    · split at h
      · exact absurd h (by simp)
      · simp only [Except.ok.injEq] at h
        subst h
        rfl

/-- The countdown form of the inner walker loop: `k` iterations of the
loop body, stopping early only on a thrown error. -/
def advanceGo : Nat → CloneState → Except CloneError CloneState
  | 0, s => .ok s
  | k + 1, s =>
    match advanceOnce s with
    | .error e => .error e
    | .ok s' => advanceGo k s'

/-- The inner walker loop of lines 144–158:
`while (part && nodeIndex < part.index) { ... }` (run only when `part` is
defined, which the caller ensures). The loop guard re-reads `nodeIndex`,
which each iteration increases by exactly one (`advanceOnce_nodeIndex`),
so the loop runs exactly `part.index - nodeIndex` iterations unless an
error is thrown first: it is embedded as that countdown with the body
kept exact. -/
def advanceTo (target : Nat) (s : CloneState) : Except CloneError CloneState :=
  advanceGo (target - s.nodeIndex) s

/-- Lines 163–184: test whether the node just arrived at is a
component-slot element (`nodeType === 1` and localName containing `mark`)
and, when it is and a context is present, decrement
`customElementsCount`, resolve and materialize the component (lines
167–181 via `resolveComponent`), replace the placeholder in the tree, and
redirect `node` and `walker.currentNode` to the instance. In the code the
decrement (line 165) precedes the potential throw; a thrown error aborts
the whole pass, so the decremented counter is unobservable on that path. -/
def customPhase (env : CloneEnv) (s : CloneState) : Except CloneError CloneState :=
  match s.node with
  | some p =>
    match getNode s.frag p with
    | some (.element tag attrs children) =>
      if strIncludes tag env.mark then
        match env.context with
        | some ctx =>
          match resolveComponent env.mark env.ctorTag ctx env.registry tag attrs children with
          | .error e => .error e
          | .ok pr =>
            .ok { s with
                  count := s.count - 1
                  frag := updateAt s.frag p pr.1
                  node := some p
                  pos := .node p
                  trace := s.trace ++ [.resolve p (selectorOf env.mark tag)] }
        | none => .ok s
      else .ok s
    | _ => .ok s
  | none => .ok s

/-- Lines 186–196, arrival at the part's node: for a `node`-kind
descriptor, create the text Part (`handleTextExpression`), hand it
`node!.previousSibling!` as insertion anchor, and push it; for an
attribute descriptor, push every Part `handleAttributeExpressions`
returns, in order. Either way `partIndex` advances by one. -/
def bindPhase (env : CloneEnv) (part : TemplatePart) (s : CloneState) :
    Except CloneError CloneState :=
  match part.kind with
  | .node =>
    match s.node with
    | none => .error .nullNodeAccess
    | some p =>
      .ok { s with
            instParts := s.instParts ++ [some (.textPart s.partIndex)]
            trace := s.trace ++ [.bindText p (anchorOf s.frag p)]
            partIndex := s.partIndex + 1 }
  | .attr =>
    .ok { s with
          instParts := s.instParts ++
            ((List.range (env.attrCount s.partIndex)).map fun j =>
              some (.attrPart s.partIndex j))
          trace := s.trace ++ [.bindAttr s.node s.partIndex]
          partIndex := s.partIndex + 1 }

/-- Result of one iteration of the outer loop. -/
inductive StepRes where
  | next (s : CloneState)
  | finished (s : CloneState)
  | threw (e : CloneError)

/-- One iteration of the outer loop of lines 133–198 of `_clone`:
while `partIndex < parts.length + customElementsCount`, read
`parts[partIndex]`; an inactive descriptor pushes a hole and continues;
otherwise advance the walker to the descriptor's index (or, when
`partIndex` is past the descriptor list, a single `walker.nextNode()`),
run the component-slot phase, and bind. -/
def cloneStep (env : CloneEnv) (s : CloneState) : StepRes :=
  if (s.partIndex : Int) < (env.parts.length : Int) + s.count then
    match env.parts.get? s.partIndex with
    | some part =>
      if isTemplatePartActive part then
        match advanceTo part.index s with
        | .error e => .threw e
        | .ok s1 =>
          match customPhase env s1 with
          | .error e => .threw e
          | .ok s2 =>
            match bindPhase env part s2 with
            | .error e => .threw e
            | .ok s3 => .next s3
      else
        .next { s with
                instParts := s.instParts ++ [none]
                partIndex := s.partIndex + 1 }
    | none =>
      let st := walkerStep s.frag s.pos
      match customPhase env { s with node := st.1, pos := st.2 } with
      | .error e => .threw e
      | .ok s2 => .next s2
  else .finished s

/-- Result of running the loop under a fuel bound: either the fuel ran
out (the loop was still going), or the loop exited normally in the final
state, or an error was thrown. -/
inductive RunRes where
  | outOfFuel
  | finished (s : CloneState)
  | threw (e : CloneError)

/-- The outer loop of `_clone`, iterated at most `fuel` times. -/
def cloneRun (env : CloneEnv) : Nat → CloneState → RunRes
  | 0, _ => .outOfFuel
  | n + 1, s =>
    match cloneStep env s with
    | .finished st => .finished st
    | .threw e => .threw e
    | .next s' => cloneRun env n s'

/-- The state of `_clone` just before the loop: the fresh clone of the
template content, empty stack and parts, `partIndex = nodeIndex = 0`,
`customElementsCount` pre-scanned from
`this.template.element.innerHTML.match(customElementOpeningTagRe)`, and
`node = walker.nextNode()` (line 128). -/
def initState (env : CloneEnv) : CloneState :=
  let frag := env.templateChildren
  let st := walkerStep frag .root
  { frag := frag
    stack := []
    pos := st.2
    node := st.1
    partIndex := 0
    nodeIndex := 0
    count := (countCustomOpen (serializeList env.templateChildren) : Int)
    instParts := []
    trace := [] }

/-- The loop of `_clone` runs only finitely many iterations on this
input (exiting normally or by a thrown error). -/
def TerminatesClone (env : CloneEnv) : Prop :=
  ∃ n, cloneRun env n (initState env) ≠ .outOfFuel

/-! ### The update protocol

`update` and `updateWithoutCommit` (lines 48–72) are embedded as the
sequences of calls they make on the stored `__parts`: `setValue` with
`values[i]` (`none` when `i` is out of range, as JS indexing yields
`undefined`) on each non-hole entry, and `commit`. A `Part`'s two
operations are external collaborators; only the calls are modelled. -/

/-- A call `update`/`updateWithoutCommit` makes on a Part. -/
inductive UpdEvent (α : Type) where
  | setVal (p : PartRef) (v : Option α)
  | commitEv (p : PartRef)

/-- The loop of `updateWithoutCommit` (lines 49–55): `i = 0`; for each
entry, a defined part receives `setValue(values[i])`; `i++` always. -/
def stageCalls (values : List α) : Nat → List (Option PartRef) → List (UpdEvent α)
  | _, [] => []
  | i, some p :: rest => .setVal p (values.get? i) :: stageCalls values (i + 1) rest
  | i, none :: rest => stageCalls values (i + 1) rest

/-- The calls `updateWithoutCommit(values)` makes, in order. -/
def updateWithoutCommitCalls (parts : List (Option PartRef)) (values : List α) :
    List (UpdEvent α) :=
  stageCalls values 0 parts

/-- The first loop of `update` (lines 60–66), textually identical to the
body of `updateWithoutCommit`. -/
def updateStageCalls (values : List α) : Nat → List (Option PartRef) → List (UpdEvent α)
  | _, [] => []
  | i, some p :: rest => .setVal p (values.get? i) :: updateStageCalls values (i + 1) rest
  | i, none :: rest => updateStageCalls values (i + 1) rest

/-- The second loop of `update` (lines 67–71): `commit()` on each
non-hole part, in list order. -/
def commitCalls : List (Option PartRef) → List (UpdEvent α)
  | [] => []
  | some p :: rest => .commitEv p :: commitCalls rest
  | none :: rest => commitCalls rest

/-- The calls `update(values)` makes, in order: the staging loop, then
the commit loop. -/
def updateCalls (parts : List (Option PartRef)) (values : List α) : List (UpdEvent α) :=
  updateStageCalls values 0 parts ++ commitCalls parts

/-- Discriminator: a staging call. -/
def UpdEvent.isStage : UpdEvent α → Bool
  | .setVal _ _ => true
  | .commitEv _ => false

/-- Discriminator: a commit call. -/
def UpdEvent.isCommit : UpdEvent α → Bool
  | .setVal _ _ => false
  | .commitEv _ => true

/-! ### Theorems: the update protocol (claims C7, C8) -/

theorem updateStage_eq_stage (values : List α) (i : Nat)
    (parts : List (Option PartRef)) :
    updateStageCalls values i parts = stageCalls values i parts := by
  induction parts generalizing i with
  | nil => rfl
  | cons p rest ih =>
    cases p with
    | none => simp [updateStageCalls, stageCalls, ih]
    | some q => simp [updateStageCalls, stageCalls, ih]

theorem stageCalls_all_stage (values : List α) (i : Nat)
    (parts : List (Option PartRef)) :
    (stageCalls values i parts).all UpdEvent.isStage = true := by
  induction parts generalizing i with
  | nil => rfl
  | cons p rest ih =>
    cases p with
    | none => simp [stageCalls, ih]
    | some q => simp [stageCalls, UpdEvent.isStage, ih]

theorem commitCalls_all_commit (parts : List (Option PartRef)) :
    (commitCalls (α := α) parts).all UpdEvent.isCommit = true := by
  induction parts with
  | nil => rfl
  | cons p rest ih =>
    cases p with
    | none => simp [commitCalls, ih]
    | some q => simp [commitCalls, UpdEvent.isCommit, ih]

/-- Claim C7: `update(values)` stages first and commits second — the calls
it makes are exactly the staging calls of `updateWithoutCommit(values)`
(its first loop is call-for-call that method's loop) followed by the
commit calls on each non-hole Part in list order, so every `setValue`
precedes every `commit`. -/
theorem update_is_stage_then_commit (parts : List (Option PartRef)) (values : List α) :
    updateCalls parts values = updateWithoutCommitCalls parts values ++ commitCalls parts ∧
    (updateWithoutCommitCalls parts values).all UpdEvent.isStage = true ∧
    (commitCalls (α := α) parts).all UpdEvent.isCommit = true := by
  refine ⟨?_, ?_, ?_⟩
  · unfold updateCalls updateWithoutCommitCalls
    rw [updateStage_eq_stage]
  · exact stageCalls_all_stage ..
  · exact commitCalls_all_commit ..

theorem stageCalls_eq_enumFrom (values : List α) (i : Nat)
    (parts : List (Option PartRef)) :
    stageCalls values i parts =
      (parts.enumFrom i).filterMap
        (fun pr => pr.2.map fun p => UpdEvent.setVal p (values.get? pr.1)) := by
  induction parts generalizing i with
  | nil => rfl
  | cons p rest ih =>
    cases p with
    | none => simp [stageCalls, List.enumFrom, ih]
    | some q => simp [stageCalls, List.enumFrom, ih]

/-- Claim C8: `updateWithoutCommit(values)` calls `setValue(values[k])` on
exactly the non-hole Parts, `k` being the Part's ordinal in the full parts
list counting holes (out-of-range `k` passes `undefined`, embedded as
`none`); holes contribute no call, and no commit call is made (every call
is a staging call). -/
theorem updateWithoutCommit_stages_by_ordinal (parts : List (Option PartRef))
    (values : List α) :
    updateWithoutCommitCalls parts values =
      parts.enum.filterMap
        (fun pr => pr.2.map fun p => UpdEvent.setVal p (values.get? pr.1)) ∧
    (updateWithoutCommitCalls parts values).all UpdEvent.isStage = true := by
  constructor
  · exact stageCalls_eq_enumFrom ..
  · exact stageCalls_all_stage ..

/-! ### Theorems: the node-part anchor (claim C10) -/

/-- The child list of the node at `q` (of the fragment itself for `q = []`),
out of which the node's children are indexed. -/
def childListAt (roots : List DNode) : NPath → Option (List DNode)
  | [] => some roots
  | i :: rest => (roots.get? i).bind fun n => childListAt (childrenOf n) rest

theorem getNode_append_last (roots : List DNode) (q : NPath) (i : Nat) :
    getNode roots (q ++ [i]) = (childListAt roots q).bind fun l => l.get? i := by
  induction q generalizing roots with
  | nil => simp [getNode, childListAt]
  | cons j rest ih =>
    cases rest with
    | nil =>
      simp only [List.nil_append, List.cons_append, getNode, childListAt]
      cases roots.get? j with
      | none => simp
      | some n => simp [getNode]
    | cons a b =>
      simp only [List.cons_append, getNode, childListAt]
      cases roots.get? j with
      | none => simp
      | some n =>
        simp only [Option.some_bind, List.append_eq]
        have ih2 := ih (childrenOf n)
        simp only [List.cons_append] at ih2
        rw [ih2]
        simp [childListAt]

/-- Claim C10: the anchor handed to `insertAfterNode` for a node-kind
descriptor is the aligned node's `previousSibling` (`anchorOf`, which
`bindPhase` passes), and whenever the aligned node exists in the tree and
its position is not a first-child position (its final child index is not
0), that previous sibling exists: the `null` branch of
`node!.previousSibling!` is unreachable there. -/
theorem anchorOf_isSome_of_not_first (frag : List DNode) (p : NPath)
    (hv : (getNode frag p).isSome) (hf : p.getLast? ≠ some 0) :
    (anchorOf frag p).isSome := by
  match hl : p.getLast? with
  | none =>
    have hp : p = [] := List.getLast?_eq_none_iff.mp hl
    subst hp
    simp [getNode] at hv
  | some 0 => exact absurd hl hf
  | some (i + 1) =>
    have hdec : p.dropLast ++ [i + 1] = p :=
      List.dropLast_append_getLast? (i + 1) (Option.mem_def.mpr hl)
    have hred : anchorOf frag p =
        if (getNode frag (p.dropLast ++ [i])).isSome then some (p.dropLast ++ [i])
        else none := by
      unfold anchorOf
      rw [hl]
    rw [hred]
    have hv2 : (getNode frag (p.dropLast ++ [i + 1])).isSome := by rwa [hdec]
    rw [getNode_append_last] at hv2
    match hc : childListAt frag p.dropLast with
    | none => rw [hc] at hv2; simp at hv2
    | some l =>
      rw [hc] at hv2
      simp only [Option.some_bind] at hv2
      obtain ⟨a, ha⟩ := Option.isSome_iff_exists.mp hv2
      obtain ⟨hlen, _⟩ := List.get?_eq_some.mp ha
      have hi : l[i]?.isSome = true := by
        rw [← List.get?_eq_getElem?, List.get?_eq_get (by omega : i < l.length)]
        rfl
      rw [getNode_append_last, hc]
      simp only [Option.some_bind]
      simp [hi]

/-- Witness for `anchorOf_isSome_of_not_first` at a concrete two-child
fragment and the path of its second child. -/
theorem anchorOf_isSome_witness :
    (anchorOf [DNode.text "a", DNode.text "b"] [1]).isSome :=
  anchorOf_isSome_of_not_first [DNode.text "a", DNode.text "b"] [1] rfl (by decide)

/-! ### Theorems: component-slot resolution (claims C2, C3, C4, C5) -/

/-- The localName of an element node. -/
def tagOf : DNode → Option String
  | .element t _ _ => some t
  | _ => none

/-- Claim C5: when, during instantiation with a context present, the
component-slot phase meets a slot node whose name has no constructor in
the context's declaration mapping and no entry in the ambient registry,
the phase throws (`customPhase` returns the error, which the
`Except`-propagating pass turns into an aborted run) the error whose
message contains the offending slot name, and no component is
materialized. -/
theorem unresolved_component_throws (env : CloneEnv) (s : CloneState)
    (p : NPath) (tag : String) (attrs : List (String × String))
    (children : List DNode) (ctx : Ctx)
    (hnode : s.node = some p)
    (hget : getNode s.frag p = some (.element tag attrs children))
    (hmark : strIncludes tag env.mark = true)
    (hctx : env.context = some ctx)
    (h1 : ctx.declarations (selectorOf env.mark tag) = none)
    (h2 : env.registry (selectorOf env.mark tag) = none) :
    customPhase env s = .error (.missingDeclaration (selectorOf env.mark tag)) ∧
    ∃ pre post, errMessage (.missingDeclaration (selectorOf env.mark tag)) =
      pre ++ selectorOf env.mark tag ++ post := by
  constructor
  · have hres : resolveComponent env.mark env.ctorTag ctx env.registry
        tag attrs children = .error (.missingDeclaration (selectorOf env.mark tag)) := by
      simp [resolveComponent, h1, h2]
    unfold customPhase
    rw [hnode]
    simp only []
    rw [hget]
    simp only [hmark, if_true]
    rw [hctx]
    simp only []
    rw [hres]
  · exact ⟨"Make sure that you" ++ apostrophe ++ "ve added ", " into declarations!",
      by simp [errMessage, String.append_assoc]⟩

/-- A fragment holding one slot node `x-w` (slot name `w`), with a
context whose declarations are empty and an empty ambient registry. -/
def envC5 : CloneEnv :=
  { templateChildren := [.element "x-w" [] []]
    parts := []
    context := some ⟨fun _ => none⟩
    registry := fun _ => none
    ctorTag := fun _ => "d"
    attrCount := fun _ => 1
    mark := "x" }

/-- Witness for `unresolved_component_throws` on `envC5`, at the state in
which `_clone` has just reached the slot node. -/
theorem unresolved_component_throws_witness :
    customPhase envC5 (initState envC5) =
      .error (.missingDeclaration (selectorOf "x" "x-w")) :=
  (unresolved_component_throws envC5 (initState envC5) [0] "x-w" [] []
    ⟨fun _ => none⟩ rfl rfl rfl rfl rfl rfl).1

/-- Claim C2 counterexample: the slot name `w` is missing from the
context's declarations but present in the ambient registry (constructor
`7`). The claim says the registry lookup then supplies the constructor
that is invoked; the code instead runs `new ctor(this.context)` with the
`undefined` result of the declarations lookup, failing with a `TypeError`
— the registry's constructor is never invoked and nothing is produced. -/
theorem fallback_ctor_not_invoked_cex :
    resolveComponent "x" (fun _ => "x-w") ⟨fun _ => none⟩
      (fun s => if s = "w" then some 7 else none) "x-w" [] [] =
      .error .ctorUndefined := rfl

/-- Claim C2 amended: the constructor invoked for a component slot comes
only from the context's declaration mapping; the ambient registry is
consulted merely as an existence check deciding whether the
missing-declaration error is thrown. When the mapping holds the slot
name, its constructor is the one invoked, whatever the registry holds;
when both lookups miss, the missing-declaration error is thrown; when
the mapping misses but the registry hits, construction fails with a type
error and no component is materialized. -/
theorem resolution_uses_declarations_only (mark : String) (ctorTag : Nat → String)
    (ctx : Ctx) (registry : String → Option Nat) (tag : String)
    (attrs : List (String × String)) (children : List DNode) :
    (∀ c, ctx.declarations (selectorOf mark tag) = some c →
      ∃ inst old,
        resolveComponent mark ctorTag ctx registry tag attrs children = .ok (inst, old) ∧
        tagOf inst = some (ctorTag c)) ∧
    (ctx.declarations (selectorOf mark tag) = none →
      registry (selectorOf mark tag) = none →
      resolveComponent mark ctorTag ctx registry tag attrs children =
        .error (.missingDeclaration (selectorOf mark tag))) ∧
    (∀ c', ctx.declarations (selectorOf mark tag) = none →
      registry (selectorOf mark tag) = some c' →
      resolveComponent mark ctorTag ctx registry tag attrs children =
        .error .ctorUndefined) := by
  refine ⟨fun c hc => ?_, fun h1 h2 => ?_, fun c' h1 h2 => ?_⟩
  · refine ⟨DNode.element (ctorTag c) (moveAttrs attrs).2
      (if serializeList children = "" then [] else [DNode.text (serializeList children)]),
      DNode.element tag (moveAttrs attrs).1 children, ?_, rfl⟩
    simp [resolveComponent, hc]
  · simp [resolveComponent, h1, h2]
  · simp [resolveComponent, h1, h2]

/-- Witness for `resolution_uses_declarations_only`: a mapping holding
constructor `3` for slot name `w` (instances tagged `q-w`), with a
registry that also claims every name — the mapping's constructor wins. -/
theorem resolution_uses_declarations_only_witness :
    ∃ inst old,
      resolveComponent "x" (fun _ => "q-w")
        ⟨fun s => if s = "w" then some 3 else none⟩ (fun _ => some 9)
        "x-w" [] [] = .ok (inst, old) ∧ tagOf inst = some "q-w" :=
  (resolution_uses_declarations_only "x" (fun _ => "q-w")
    ⟨fun s => if s = "w" then some 3 else none⟩ (fun _ => some 9)
    "x-w" [] []).1 3 rfl

/-- A character the HTML text serializer does not escape. -/
def escapeFreeStr (s : String) : Bool :=
  s.toList.all fun c => !(c = '&' || c = '<' || c = '>')

/-- A child whose serialization equals its text content: a text node free
of escaped characters. -/
def plainTextChild : DNode → Bool
  | .text d => escapeFreeStr d
  | _ => false

theorem flatMap_escape_id (l : List Char)
    (h : (l.all fun c => !(c = '&' || c = '<' || c = '>')) = true) :
    (l.flatMap fun c =>
      if c = '&' then "&amp;".toList
      else if c = '<' then "&lt;".toList
      else if c = '>' then "&gt;".toList
      else [c]) = l := by
  induction l with
  | nil => rfl
  | cons c t ih =>
    simp only [List.all_cons, Bool.and_eq_true] at h
    obtain ⟨h1, h2⟩ := h
    simp only [Bool.not_eq_true', Bool.or_eq_false_iff, decide_eq_false_iff_not] at h1
    simp only [List.flatMap_cons, ih h2]
    rw [if_neg h1.1.1, if_neg h1.1.2, if_neg h1.2]
    rfl

theorem escapeHtml_of_escapeFree (s : String) (h : escapeFreeStr s = true) :
    escapeHtml s = s := by
  unfold escapeHtml
  unfold escapeFreeStr at h
  rw [flatMap_escape_id s.toList h]
  rfl

theorem serializeList_of_plainText (children : List DNode)
    (h : children.all plainTextChild = true) :
    serializeList children = descTextList children := by
  induction children with
  | nil => rfl
  | cons n t ih =>
    simp only [List.all_cons, Bool.and_eq_true] at h
    cases n with
    | text d =>
      simp only [serializeList, serializeNode, descTextList, descText, ih h.2]
      rw [escapeHtml_of_escapeFree d (by simpa [plainTextChild] using h.1)]
    | element a b c => exact absurd h.1 (by simp [plainTextChild])
    | comment d => exact absurd h.1 (by simp [plainTextChild])

/-- Claim C3 counterexample: a placeholder `<x-w><b>hi</b></x-w>` (context
declares its slot). The code copies `oldNode.innerHTML` into
`instance.textContent`, so the instance's text content is the serialized
markup `<b>hi</b>`, while the placeholder's original text content is
`hi` — the two differ. -/
theorem transplant_copies_innerHTML_cex :
    (resolveComponent "x" (fun _ => "x-w") ⟨fun _ => some 0⟩ (fun _ => none)
      "x-w" [] [DNode.element "b" [] [DNode.text "hi"]] =
      .ok (DNode.element "x-w" [] [DNode.text "<b>hi</b>"],
           DNode.element "x-w" [] [DNode.element "b" [] [DNode.text "hi"]])) ∧
    descText (DNode.element "x-w" [] [DNode.text "<b>hi</b>"]) ≠
      descText (DNode.element "x-w" [] [DNode.element "b" [] [DNode.text "hi"]]) := by
  exact ⟨rfl, by decide⟩

/-- Claim C3 amended: after resolving a component slot, the new
instance's text content equals the placeholder's `innerHTML`
serialization; this equals the placeholder's original text content
exactly when every child of the placeholder is a text node free of the
characters the serializer escapes (`&`, `<`, `>`). -/
theorem transplant_text_fidelity (mark : String) (ctorTag : Nat → String)
    (ctx : Ctx) (registry : String → Option Nat) (tag : String)
    (attrs : List (String × String)) (children : List DNode)
    (pr : DNode × DNode)
    (hres : resolveComponent mark ctorTag ctx registry tag attrs children = .ok pr) :
    descText pr.1 = serializeList children ∧
    (children.all plainTextChild = true →
      descText pr.1 = descText (DNode.element tag attrs children)) := by
  have hmain : descText pr.1 = serializeList children := by
    unfold resolveComponent at hres
    simp only [] at hres
    split at hres
    · exact absurd hres (by simp)
    · split at hres
      · exact absurd hres (by simp)
      · simp only [Except.ok.injEq] at hres
        subst hres
        by_cases hz : serializeList children = ""
        · simp [descText, descTextList, hz]
        · simp [descText, descTextList, hz]
  refine ⟨hmain, fun hp => ?_⟩
  rw [hmain, serializeList_of_plainText children hp]
  rfl

/-- Witness for `transplant_text_fidelity`: a placeholder holding the
single text child `hi`; the instance's text content equals the
placeholder's. -/
theorem transplant_text_fidelity_witness :
    descText (DNode.element "x-w" [("a", "1")] [DNode.text "hi"],
              DNode.element "x-w" [] [DNode.text "hi"]).1 =
      descText (DNode.element "x-w" [("a", "1")] [DNode.text "hi"]) :=
  (transplant_text_fidelity "x" (fun _ => "x-w") ⟨fun _ => some 0⟩ (fun _ => none)
    "x-w" [("a", "1")] [DNode.text "hi"]
    (DNode.element "x-w" [("a", "1")] [DNode.text "hi"],
     DNode.element "x-w" [] [DNode.text "hi"]) rfl).2 rfl

/-- Claim C4, evaluated at the failing input (a placeholder with the two
attributes `a="1"`, `b="2"`): the transplant loop iterates `i` over the
LIVE attribute collection while removing from it, so it moves only
attribute `a`; attribute `b` stays on the detached placeholder and never
reaches the instance — contradicting "every attribute the placeholder
had is present on the new instance" and "the placeholder retains none of
them". -/
theorem attr_transplant_skips_alternates :
    resolveComponent "x" (fun _ => "x-w") ⟨fun _ => some 0⟩ (fun _ => none)
      "x-w" [("a", "1"), ("b", "2")] [] =
      .ok (DNode.element "x-w" [("a", "1")] [],
           DNode.element "x-w" [("b", "2")] []) := rfl

/-! ### Theorems: degenerate template (claim C9) -/

/-- Claim C9: a template with zero part descriptors and zero
component-slot marker occurrences instantiates in zero loop iterations:
the loop condition `0 < 0 + 0` is false at entry, so `_clone` returns the
fresh clone with the parts list empty, no creation-strategy handler
invoked and no node replaced (empty event trace), the fragment exactly
the cloned template content. -/
theorem empty_template_degenerates (env : CloneEnv) (n : Nat)
    (hparts : env.parts = [])
    (hcount : countCustomOpen (serializeList env.templateChildren) = 0)
    (hn : 1 ≤ n) :
    cloneRun env n (initState env) = .finished (initState env) ∧
    (initState env).instParts = [] ∧
    (initState env).trace = [] ∧
    (initState env).frag = env.templateChildren := by
  obtain ⟨m, rfl⟩ : ∃ m, n = m + 1 := ⟨n - 1, by omega⟩
  have hstep : cloneStep env (initState env) = .finished (initState env) := by
    unfold cloneStep
    rw [if_neg]
    simp only [initState, hparts, hcount, List.length_nil]
    omega
  refine ⟨?_, rfl, rfl, rfl⟩
  show (match cloneStep env (initState env) with
    | .finished st => RunRes.finished st
    | .threw e => .threw e
    | .next s' => cloneRun env m s') = .finished (initState env)
  rw [hstep]

/-- A descriptor-free, slot-free template for the degenerate case. -/
def envC9 : CloneEnv :=
  { templateChildren := [.text "t"]
    parts := []
    context := none
    registry := fun _ => none
    ctorTag := fun _ => "d"
    attrCount := fun _ => 1
    mark := "x" }

/-- Witness for `empty_template_degenerates` on `envC9` with fuel 1. -/
theorem empty_template_degenerates_witness :
    cloneRun envC9 1 (initState envC9) = .finished (initState envC9) ∧
    (initState envC9).instParts = [] ∧
    (initState envC9).trace = [] ∧
    (initState envC9).frag = envC9.templateChildren :=
  empty_template_degenerates envC9 1 rfl rfl (by omega)

/-! ### Field-preservation lemmas for the loop phases -/

theorem advanceOnce_fields {s s' : CloneState} (h : advanceOnce s = .ok s') :
    s'.partIndex = s.partIndex ∧ s'.count = s.count ∧ s'.instParts = s.instParts := by
  unfold advanceOnce at h
  split at h
  · exact absurd h (by simp)
  · simp only [] at h
    split at h
    · simp only [Except.ok.injEq] at h
      subst h
      exact ⟨rfl, rfl, rfl⟩
    · split at h
      · exact absurd h (by simp)
      · simp only [Except.ok.injEq] at h
        subst h
        exact ⟨rfl, rfl, rfl⟩

theorem advanceGo_fields : ∀ (k : Nat) {s s' : CloneState}, advanceGo k s = .ok s' →
    s'.partIndex = s.partIndex ∧ s'.count = s.count ∧ s'.instParts = s.instParts := by
  intro k
  induction k with
  | zero =>
    intro s s' h
    simp only [advanceGo, Except.ok.injEq] at h
    subst h
    exact ⟨rfl, rfl, rfl⟩
  | succ k ih =>
    intro s s' h
    simp only [advanceGo] at h
    cases ha : advanceOnce s with
    | error e => rw [ha] at h; cases h
    | ok s1 =>
      rw [ha] at h
      obtain ⟨a1, a2, a3⟩ := advanceOnce_fields ha
      obtain ⟨b1, b2, b3⟩ := ih h
      exact ⟨by rw [b1, a1], by rw [b2, a2], by rw [b3, a3]⟩

theorem advanceTo_fields {target : Nat} {s s' : CloneState}
    (h : advanceTo target s = .ok s') :
    s'.partIndex = s.partIndex ∧ s'.count = s.count ∧ s'.instParts = s.instParts :=
  advanceGo_fields _ h

theorem customPhase_fields {env : CloneEnv} {s s' : CloneState}
    (h : customPhase env s = .ok s') :
    s'.partIndex = s.partIndex ∧ s'.instParts = s.instParts ∧ s'.count ≤ s.count := by
  unfold customPhase at h
  split at h
  · split at h
    · split at h
      · split at h
        · split at h
          · exact absurd h (by simp)
          · simp only [Except.ok.injEq] at h
            subst h
            exact ⟨rfl, rfl, show s.count - 1 ≤ s.count by omega⟩
        · simp only [Except.ok.injEq] at h
          subst h
          exact ⟨rfl, rfl, le_refl _⟩
      · simp only [Except.ok.injEq] at h
        subst h
        exact ⟨rfl, rfl, le_refl _⟩
    · simp only [Except.ok.injEq] at h
      subst h
      exact ⟨rfl, rfl, le_refl _⟩
  · simp only [Except.ok.injEq] at h
    subst h
    exact ⟨rfl, rfl, le_refl _⟩

/-- What one binding appends to `this.__parts` for an active descriptor:
one text Part for a `node` descriptor, and the sequence of Parts the
attribute handler returns for an `attribute` descriptor. -/
def partContribution (env : CloneEnv) (part : TemplatePart) (i : Nat) :
    List (Option PartRef) :=
  match part.kind with
  | .node => [some (.textPart i)]
  | .attr => (List.range (env.attrCount i)).map fun j => some (.attrPart i j)

theorem bindPhase_fields {env : CloneEnv} {part : TemplatePart} {s s' : CloneState}
    (h : bindPhase env part s = .ok s') :
    s'.partIndex = s.partIndex + 1 ∧ s'.count = s.count ∧
    s'.instParts = s.instParts ++ partContribution env part s.partIndex := by
  obtain ⟨kind, index, name, strings, active⟩ := part
  cases kind with
  | node =>
    simp only [bindPhase] at h
    split at h
    · exact absurd h (by simp)
    · simp only [Except.ok.injEq] at h
      subst h
      exact ⟨rfl, rfl, by simp [partContribution]⟩
  | attr =>
    simp only [bindPhase, Except.ok.injEq] at h
    subst h
    exact ⟨rfl, rfl, by simp [partContribution]⟩

/-! ### Theorems: loop termination (claim C6) -/

theorem cloneStep_next_progress {env : CloneEnv} {s s' : CloneState}
    (hc : s.count ≤ 0) (h : cloneStep env s = .next s') :
    s.partIndex < env.parts.length ∧
    s'.partIndex = s.partIndex + 1 ∧ s'.count ≤ 0 := by
  unfold cloneStep at h
  split at h
  · rename_i hcond
    have hlt : s.partIndex < env.parts.length := by omega
    refine ⟨hlt, ?_⟩
    obtain ⟨part, hp⟩ : ∃ p, env.parts.get? s.partIndex = some p :=
      ⟨_, List.get?_eq_get hlt⟩
    rw [hp] at h
    simp only [] at h
    split at h
    · cases ha : advanceTo part.index s with
      | error e => rw [ha] at h; cases h
      | ok s1 =>
        rw [ha] at h
        simp only [] at h
        cases hcp : customPhase env s1 with
        | error e => rw [hcp] at h; cases h
        | ok s2 =>
          rw [hcp] at h
          simp only [] at h
          cases hb : bindPhase env part s2 with
          | error e => rw [hb] at h; cases h
          | ok s3 =>
            rw [hb] at h
            simp only [StepRes.next.injEq] at h
            subst h
            obtain ⟨a1, a2, _⟩ := advanceTo_fields ha
            obtain ⟨c1, _, c3⟩ := customPhase_fields hcp
            obtain ⟨b1, b2, _⟩ := bindPhase_fields hb
            constructor
            · rw [b1, c1, a1]
            · omega
    · simp only [StepRes.next.injEq] at h
      subst h
      exact ⟨rfl, hc⟩
  · cases h

theorem cloneRun_term_aux (env : CloneEnv) :
    ∀ (k : Nat) (s : CloneState), s.count ≤ 0 →
      env.parts.length - s.partIndex ≤ k →
      cloneRun env (k + 1) s ≠ .outOfFuel := by
  intro k
  induction k with
  | zero =>
    intro s hc hk
    have hstep : cloneStep env s = .finished s := by
      unfold cloneStep
      rw [if_neg]
      omega
    show (match cloneStep env s with
      | .finished st => RunRes.finished st
      | .threw e => .threw e
      | .next s' => cloneRun env 0 s') ≠ .outOfFuel
    rw [hstep]
    exact fun hh => RunRes.noConfusion hh
  | succ k ih =>
    intro s hc hk
    show (match cloneStep env s with
      | .finished st => RunRes.finished st
      | .threw e => .threw e
      | .next s' => cloneRun env (k + 1) s') ≠ .outOfFuel
    cases hstep : cloneStep env s with
    | finished st => exact fun hh => RunRes.noConfusion hh
    | threw e => exact fun hh => RunRes.noConfusion hh
    | next s1 =>
      obtain ⟨h0, h1, h2⟩ := cloneStep_next_progress hc hstep
      exact ih s1 h2 (by omega)

/-- Claim C6 amended: the instantiation loop terminates (exits normally or
by a thrown error) whenever every iteration that consumes no part
descriptor resolves a component slot and decrements the counter — in
particular, for every configuration whose pre-scanned marker count is
zero, whatever the descriptors, it exits within one iteration per
descriptor. Without that progress guarantee it can spin forever: see the
counterexample, where a slot is present but no context is, so the counter
is never decremented. -/
theorem clone_loop_terminates_no_slots (env : CloneEnv)
    (h : countCustomOpen (serializeList env.templateChildren) = 0) :
    TerminatesClone env := by
  refine ⟨env.parts.length + 1, ?_⟩
  apply cloneRun_term_aux
  · show ((countCustomOpen (serializeList env.templateChildren) : Int)) ≤ 0
    rw [h]
    omega
  · show env.parts.length - 0 ≤ env.parts.length
    omega

/-- A template with one descriptor and no component-slot markers, for the
termination witness. -/
def envC6T : CloneEnv :=
  { templateChildren := [.element "div" [] [], .text "t"]
    parts := [{ kind := .node, index := 1, active := true }]
    context := none
    registry := fun _ => none
    ctorTag := fun _ => "d"
    attrCount := fun _ => 1
    mark := "x" }

/-- Witness for `clone_loop_terminates_no_slots` on `envC6T`. -/
theorem clone_loop_terminates_witness : TerminatesClone envC6T :=
  clone_loop_terminates_no_slots envC6T rfl

/-- The diverging configuration: one genuine component-slot element
(`<x-foo>`, counted 1 by the pre-scan, matching the tree), no part
descriptors, and no context. -/
def envC6 : CloneEnv :=
  { templateChildren := [.element "x-foo" [] []]
    parts := []
    context := none
    registry := fun _ => none
    ctorTag := fun _ => "x-foo"
    attrCount := fun _ => 0
    mark := "x" }

/-- The state the loop stalls in on `envC6`: the walker exhausted
(`node = null`), `partIndex = 0`, `customElementsCount = 1`. -/
def stallC6 : CloneState := { initState envC6 with node := none }

theorem cloneStep_envC6_init : cloneStep envC6 (initState envC6) = .next stallC6 := rfl

theorem cloneStep_envC6_stall : cloneStep envC6 stallC6 = .next stallC6 := rfl

/-- Claim C6 counterexample: on `envC6` — slots and descriptors in a
perfectly consistent configuration (one slot node, pre-scanned count 1),
but no context — the loop condition `0 < 0 + 1` stays true while no
iteration consumes a descriptor or decrements the counter (the
custom-element branch requires `this.context`), so the instantiation
loop never terminates: the claim's "for every templates-and-slots
configuration ... terminates" is false of the code. -/
theorem clone_loop_diverges_cex : ¬ TerminatesClone envC6 := by
  rintro ⟨n, hn⟩
  apply hn
  have hstall : ∀ m, cloneRun envC6 m stallC6 = .outOfFuel := by
    intro m
    induction m with
    | zero => rfl
    | succ k ih =>
      show (match cloneStep envC6 stallC6 with
        | .finished st => RunRes.finished st
        | .threw e => .threw e
        | .next s' => cloneRun envC6 k s') = .outOfFuel
      rw [cloneStep_envC6_stall]
      exact ih
  cases n with
  | zero => rfl
  | succ m =>
    show (match cloneStep envC6 (initState envC6) with
      | .finished st => RunRes.finished st
      | .threw e => .threw e
      | .next s' => cloneRun envC6 m s') = .outOfFuel
    rw [cloneStep_envC6_init]
    exact hstall m

/-! ### Theorems: parts-list alignment (claim C1) -/

/-- What `this.__parts` holds after the first `n` descriptors have been
consumed: per descriptor, a hole when inactive, otherwise its binding's
contribution. -/
def expectedParts (env : CloneEnv) : Nat → List (Option PartRef)
  | 0 => []
  | n + 1 =>
    expectedParts env n ++
      (match env.parts.get? n with
       | none => []
       | some p =>
         if isTemplatePartActive p then partContribution env p n else [none])

theorem cloneStep_finished {env : CloneEnv} {s s2 : CloneState}
    (h : cloneStep env s = .finished s2) :
    s2 = s ∧ ¬((s.partIndex : Int) < (env.parts.length : Int) + s.count) := by
  unfold cloneStep at h
  split at h
  · exfalso
    cases hp : env.parts.get? s.partIndex with
    | none =>
      rw [hp] at h
      simp only [] at h
      cases hcp : customPhase env { s with
          node := (walkerStep s.frag s.pos).1
          pos := (walkerStep s.frag s.pos).2 } with
      | error e => rw [hcp] at h; cases h
      | ok s3 => rw [hcp] at h; cases h
    | some part =>
      rw [hp] at h
      simp only [] at h
      split at h
      · cases ha : advanceTo part.index s with
        | error e => rw [ha] at h; cases h
        | ok s1 =>
          rw [ha] at h
          simp only [] at h
          cases hcp : customPhase env s1 with
          | error e => rw [hcp] at h; cases h
          | ok s3 =>
            rw [hcp] at h
            simp only [] at h
            cases hb : bindPhase env part s3 with
            | error e => rw [hb] at h; cases h
            | ok s4 => rw [hb] at h; cases h
      · cases h
  · rename_i hcond
    simp only [StepRes.finished.injEq] at h
    exact ⟨h.symm, hcond⟩

theorem cloneStep_next_inv {env : CloneEnv} {s s' : CloneState}
    (h : cloneStep env s = .next s')
    (h1 : s.instParts = expectedParts env s.partIndex)
    (h2 : s.partIndex ≤ env.parts.length) :
    s'.instParts = expectedParts env s'.partIndex ∧ s'.partIndex ≤ env.parts.length := by
  unfold cloneStep at h
  split at h
  · cases hp : env.parts.get? s.partIndex with
    | none =>
      rw [hp] at h
      simp only [] at h
      cases hcp : customPhase env { s with
          node := (walkerStep s.frag s.pos).1
          pos := (walkerStep s.frag s.pos).2 } with
      | error e => rw [hcp] at h; cases h
      | ok s2 =>
        rw [hcp] at h
        simp only [StepRes.next.injEq] at h
        subst h
        obtain ⟨c1, c2, _⟩ := customPhase_fields hcp
        have c1' : s2.partIndex = s.partIndex := c1
        have c2' : s2.instParts = s.instParts := c2
        rw [c1', c2']
        exact ⟨h1, h2⟩
    | some part =>
      have hlt : s.partIndex < env.parts.length := by
        obtain ⟨hh, _⟩ := List.get?_eq_some.mp hp
        exact hh
      rw [hp] at h
      simp only [] at h
      split at h
      · rename_i hact
        cases ha : advanceTo part.index s with
        | error e => rw [ha] at h; cases h
        | ok s1 =>
          rw [ha] at h
          simp only [] at h
          cases hcp : customPhase env s1 with
          | error e => rw [hcp] at h; cases h
          | ok s2 =>
            rw [hcp] at h
            simp only [] at h
            cases hb : bindPhase env part s2 with
            | error e => rw [hb] at h; cases h
            | ok s3 =>
              rw [hb] at h
              simp only [StepRes.next.injEq] at h
              subst h
              obtain ⟨a1, _, a3⟩ := advanceTo_fields ha
              obtain ⟨c1, c2, _⟩ := customPhase_fields hcp
              obtain ⟨b1, _, b3⟩ := bindPhase_fields hb
              constructor
              · rw [b3, c2, a3, b1, c1, a1, h1]
                rw [List.get?_eq_getElem?] at hp
                simp [expectedParts, hp, hact]
              · rw [b1, c1, a1]
                omega
      · rename_i hact
        simp only [StepRes.next.injEq] at h
        subst h
        constructor
        · show s.instParts ++ [none] = expectedParts env (s.partIndex + 1)
          rw [h1]
          rw [List.get?_eq_getElem?] at hp
          simp [expectedParts, hp, hact]
        · show s.partIndex + 1 ≤ env.parts.length
          omega
  · cases h

theorem cloneRun_finished_inv (env : CloneEnv) :
    ∀ (n : Nat) (s st : CloneState), cloneRun env n s = .finished st →
      s.instParts = expectedParts env s.partIndex →
      s.partIndex ≤ env.parts.length →
      st.instParts = expectedParts env st.partIndex ∧
      st.partIndex ≤ env.parts.length ∧
      ¬((st.partIndex : Int) < (env.parts.length : Int) + st.count) := by
  intro n
  induction n with
  | zero =>
    intro s st h
    cases h
  | succ n ih =>
    intro s st h h1 h2
    have h' : (match cloneStep env s with
      | .finished s2 => RunRes.finished s2
      | .threw e => .threw e
      | .next s1 => cloneRun env n s1) = .finished st := h
    cases hstep : cloneStep env s with
    | finished s2 =>
      rw [hstep] at h'
      simp only [RunRes.finished.injEq] at h'
      subst h'
      obtain ⟨heq, hcond⟩ := cloneStep_finished hstep
      subst heq
      exact ⟨h1, h2, hcond⟩
    | threw e =>
      rw [hstep] at h'
      cases h'
    | next s1 =>
      rw [hstep] at h'
      obtain ⟨k1, k2⟩ := cloneStep_next_inv hstep h1 h2
      exact ih s1 st h' k1 k2

/-- The single entry descriptor `k` leaves in the parts list when the
attribute handler returns exactly one Part per call. -/
def entryOf (env : CloneEnv) (k : Nat) : Option PartRef :=
  match env.parts.get? k with
  | none => none
  | some p =>
    if isTemplatePartActive p then
      match p.kind with
      | .node => some (.textPart k)
      | .attr => some (.attrPart k 0)
    else none

theorem expectedParts_eq_map (env : CloneEnv) (hattr : ∀ i, env.attrCount i = 1) :
    ∀ n, n ≤ env.parts.length →
      expectedParts env n = (List.range n).map (entryOf env) := by
  intro n
  induction n with
  | zero => intro _; rfl
  | succ n ih =>
    intro hn
    have hlt : n < env.parts.length := by omega
    obtain ⟨p, hp⟩ : ∃ p, env.parts.get? n = some p := ⟨_, List.get?_eq_get hlt⟩
    have hp2 : env.parts[n]? = some p := by
      rw [← List.get?_eq_getElem?]
      exact hp
    rw [List.range_succ, List.map_append, ← ih (by omega)]
    simp only [expectedParts, hp, hp2, List.map_cons, List.map_nil]
    congr 1
    by_cases hact : isTemplatePartActive p = true
    · rw [if_pos hact]
      unfold partContribution
      cases hk : p.kind with
      | node => simp [entryOf, hp, hp2, hact, hk]
      | attr => simp [entryOf, hp, hp2, hact, hk, hattr n, List.range_succ]
    · rw [if_neg hact]
      simp only [Bool.not_eq_true] at hact
      simp [entryOf, hp, hp2, hact]

/-- Claim C1 amended: when `instantiate()`'s loop completes with the
component counter not driven negative, and the creation strategy's
attribute-expression handler returns exactly one Part per call, the
produced parts list has exactly one entry per part descriptor
(`parts.length = partDescriptors.length`) and the entry at ordinal `k` is
a hole (`undefined`) iff descriptor `k` is inactive. Without the
one-Part-per-call hypothesis the handler's fan-out (zero or several Parts
per attribute descriptor, as the interface allows) breaks the ordinal
correspondence: see the counterexample. -/
theorem clone_parts_align (env : CloneEnv) (n : Nat) (st : CloneState)
    (hrun : cloneRun env n (initState env) = .finished st)
    (hattr : ∀ i, env.attrCount i = 1)
    (hcnt : 0 ≤ st.count) :
    st.instParts.length = env.parts.length ∧
    ∀ k pk, env.parts.get? k = some pk →
      (st.instParts.get? k = some none ↔ isTemplatePartActive pk = false) := by
  obtain ⟨hi1, hi2, hi3⟩ :=
    cloneRun_finished_inv env n (initState env) st hrun rfl (by
      show 0 ≤ env.parts.length
      omega)
  have hpi : st.partIndex = env.parts.length := by omega
  rw [hpi] at hi1
  rw [expectedParts_eq_map env hattr _ (le_refl _)] at hi1
  constructor
  · rw [hi1]
    simp
  · intro k pk hk
    have hklt : k < env.parts.length := by
      obtain ⟨hh, _⟩ := List.get?_eq_some.mp hk
      exact hh
    rw [hi1, List.get?_map, List.get?_range hklt]
    simp only [Option.map_some', Option.some.injEq]
    unfold entryOf
    rw [hk]
    by_cases hact : isTemplatePartActive pk = true
    · cases hkind : pk.kind with
      | node => simp [hact, hkind]
      | attr => simp [hact, hkind]
    · simp only [Bool.not_eq_true] at hact
      simp [hact]

/-- One ACTIVE attribute descriptor whose handler call returns zero
Parts. -/
def envC1 : CloneEnv :=
  { templateChildren := [.element "div" [] []]
    parts := [{ kind := .attr, index := 0, name := "a", active := true }]
    context := none
    registry := fun _ => none
    ctorTag := fun _ => "d"
    attrCount := fun _ => 0
    mark := "zz" }

/-- The final state of instantiation on `envC1`. -/
def stC1 : CloneState :=
  { frag := [.element "div" [] []]
    stack := []
    pos := .node [0]
    node := some [0]
    partIndex := 1
    nodeIndex := 0
    count := 0
    instParts := []
    trace := [.bindAttr (some [0]) 0] }

/-- Claim C1 counterexample: on `envC1` — a single active attribute
descriptor bound via the creation strategy's attribute-expression
handler, which here returns zero Parts (its interface allows a sequence
of any length) — instantiation completes with `parts` empty:
`parts.length = 0 ≠ 1 = partDescriptors.length`, refuting the claimed
ordinal correspondence. -/
theorem clone_parts_align_cex :
    cloneRun envC1 2 (initState envC1) = .finished stC1 ∧
    stC1.instParts.length ≠ envC1.parts.length :=
  ⟨rfl, by decide⟩

/-- A template with one active node descriptor and one inactive
descriptor, the attribute handler returning one Part per call. -/
def envC1W : CloneEnv :=
  { templateChildren := [.text "t", .element "div" [] []]
    parts := [{ kind := .node, index := 1, active := true },
              { kind := .attr, index := 1, name := "a", active := false }]
    context := none
    registry := fun _ => none
    ctorTag := fun _ => "d"
    attrCount := fun _ => 1
    mark := "zz" }

/-- The final state of instantiation on `envC1W`. -/
def stC1W : CloneState :=
  { frag := [.text "t", .element "div" [] []]
    stack := []
    pos := .node [1]
    node := some [1]
    partIndex := 2
    nodeIndex := 1
    count := 0
    instParts := [some (.textPart 0), none]
    trace := [.bindText [1] (some [0])] }

/-- Witness for `clone_parts_align` on `envC1W`: two descriptors, two
entries (the inactive one a hole). -/
theorem clone_parts_align_witness :
    stC1W.instParts.length = envC1W.parts.length :=
  (clone_parts_align envC1W 3 stC1W rfl (fun _ => rfl) (by decide)).1
